import Mathlib

/-!
# Verification of auto-sorter.py

A shallow embedding of the downloads-folder sorter (`src/auto-sorter.py`) and
proofs about its stability detection, debounce logic, duplicate handling,
extension routing, dry-run mode, statistics, and exclusion matching.

Modelling conventions:
* the filesystem is an association list from path strings to byte contents;
* wall-clock times (from `time.time()`) and JSON numbers are rationals;
* a `(st_size, st_mtime)` sample from `os.stat` is a pair of integers;
* Python's unbounded `while` loop in `safe_move`'s rename branch is given an
  explicit fuel argument, with `none` standing for non-termination;
* logging and `save_stats` I/O are not modelled (they do not affect the state
  the claims speak about).
-/

set_option autoImplicit false

namespace AutoSorter

/-! ## String helpers (character-list based, mirroring the `os.path` helpers) -/

/-- The characters strictly after the last occurrence of `c` (the whole list
when `c` does not occur).  This is `l[l.rfind(c)+1:]` in Python terms. -/
def after_last (c : Char) (l : List Char) : List Char :=
  ((l.reverse.takeWhile (fun x => x ≠ c)).reverse)

/-- `os.path.basename`: everything after the last `'/'`. -/
def basename (p : String) : String :=
  ⟨after_last '/' p.data⟩

/-- `os.path.join` for POSIX paths (two components, as used by the script). -/
def path_join (a b : String) : String :=
  if b.data.head? = some '/' then b
  else if a = "" ∨ a.data.getLast? = some '/' then a ++ b
  else a ++ "/" ++ b

/-- Python's `str.lower`, modelled with `Char.toLower`. -/
def str_lower (s : String) : String :=
  ⟨s.data.map Char.toLower⟩

/-- `filename.split(".")[-1]`: the part after the last dot (the whole string
when there is no dot). -/
def ext_token (filename : String) : String :=
  ⟨after_last '.' filename.data⟩

/-- `os.path.splitext` on a basename (no separators): split at the last dot,
except that when every character before the last dot is itself a dot the
extension is empty (CPython's leading-dots rule, so `".gitignore"` has no
extension). -/
def splitext (filename : String) : String × String :=
  let l := filename.data
  if l.contains '.' = false then (filename, "")
  else
    let tail := after_last '.' l
    let pre := l.take (l.length - tail.length - 1)
    if pre.all (fun x => x = '.') then (filename, "")
    else (⟨pre⟩, ⟨'.' :: tail⟩)

/-- Contiguous-substring test, Python's `needle in hay` on strings. -/
def substr_in (needle hay : List Char) : Bool :=
  match hay with
  | [] => needle.isEmpty
  | _ :: t => needle.isPrefixOf hay || substr_in needle t

/-! ## `is_file_complete` (stability detection)

The Python function polls `os.stat` up to `checks` times; a sample is the
pair `(st_size, st_mtime)`.  We embed it over the list of samples the polls
would observe.  `prev_size`/`prev_mtime` start at `-1` exactly as in the
source. -/

/-- The polling loop of `is_file_complete`: state is the remaining samples,
`stable_count`, `prev_size`, `prev_mtime`. -/
def is_file_complete_loop : List (Int × Int) → Nat → Int → Int → Bool
  | [], _, _, _ => false
  | (size, mtime) :: rest, stable_count, prev_size, prev_mtime =>
    if size = prev_size ∧ mtime = prev_mtime then
      (if stable_count + 1 ≥ 2 then true
       else is_file_complete_loop rest (stable_count + 1) prev_size prev_mtime)
    else
      (if (0 : Nat) ≥ 2 then true
       else is_file_complete_loop rest 0 size mtime)

/-- `is_file_complete` over the list of `(st_size, st_mtime)` samples the
polls observe (the list has length `checks`).  A missing file
(`FileNotFoundError`/`OSError`) is modelled by the caller supplying whatever
makes the claim's hypotheses fail; the claims only concern the successful
polling path. -/
def is_file_complete (samples : List (Int × Int)) : Bool :=
  is_file_complete_loop samples 0 (-1) (-1)

/-- C1: Stability detection: with `checks = 3`, `is_file_complete` returns
`true` if and only if all three polled `(st_size, st_mtime)` samples are
equal; any change between consecutive samples resets the stability count to
zero, so a file whose size or mtime changes on any of the three polls yields
`false`.  The hypothesis `0 ≤ s1.1` records that a real file's `st_size` is
non-negative (so the first sample never coincides with the `-1` sentinels). -/
theorem is_file_complete_three_iff_all_equal
    (s1 s2 s3 : Int × Int) (hsz : 0 ≤ s1.1) :
    is_file_complete [s1, s2, s3] = true ↔ (s1 = s2 ∧ s2 = s3) := by
  obtain ⟨a1, b1⟩ := s1
  obtain ⟨a2, b2⟩ := s2
  obtain ⟨a3, b3⟩ := s3
  simp only [Prod.fst] at hsz
  simp only [is_file_complete, is_file_complete_loop, Prod.mk.injEq]
  split_ifs <;> simp_all <;> omega

/-- Witness for C1 at a concrete stable sample stream and at the theorem's
hypothesis. -/
theorem is_file_complete_three_iff_all_equal_witness :
    is_file_complete [((5 : Int), (7 : Int)), (5, 7), (5, 7)] = true ↔
      (((5 : Int), (7 : Int)) = (5, 7) ∧ ((5 : Int), (7 : Int)) = (5, 7)) :=
  is_file_complete_three_iff_all_equal (5, 7) (5, 7) (5, 7) (by decide)

/-! ## Association-list helpers (Python dicts with insertion order) -/

/-- Lookup in an association list (`d.get(k)` / `d[k]`). -/
def dict_get {α : Type} (m : List (String × α)) (k : String) : Option α :=
  match m with
  | [] => none
  | (k', v) :: rest => if k' = k then some v else dict_get rest k

/-- Dict assignment `d[k] = v`: overwrite in place, append when absent. -/
def dict_set {α : Type} (m : List (String × α)) (k : String) (v : α) :
    List (String × α) :=
  match m with
  | [] => [(k, v)]
  | (k', v') :: rest =>
    if k' = k then (k', v) :: rest else (k', v') :: dict_set rest k v

/-! ## The filesystem model

Paths are full path strings; contents are byte lists.  Only the parts of the
filesystem the sorter touches are modelled. -/

/-- A filesystem: an association list from paths to byte contents. -/
structure FS where
  files : List (String × List Nat)
deriving DecidableEq

/-- `os.path.exists`. -/
def FS.pathExists (fs : FS) (p : String) : Bool :=
  (dict_get fs.files p).isSome

/-- `os.remove`. -/
def FS.erase (fs : FS) (p : String) : FS :=
  ⟨fs.files.filter (fun kv => kv.1 ≠ p)⟩

/-- `shutil.move src dst` when `dst` does not exist: the content of `src`
reappears at `dst`.  (The script only ever moves onto a non-existing
destination, or after `os.remove` in the replace branch.) -/
def FS.move (fs : FS) (src dst : String) : FS :=
  match dict_get fs.files src with
  | none => fs
  | some c => ⟨(fs.erase src).files ++ [(dst, c)]⟩

/-! ## Statistics (`SorterStats`)

Only the numeric fields the claims mention are modelled; `last_summary` and
`session_start` are timestamps/strings the claims never touch, and
`save_stats` is I/O. -/

/-- The mutable statistics record. -/
structure Stats where
  total_files_processed : Nat
  files_by_category : List (String × Nat)
  total_size_moved_mb : ℚ
  errors : Nat
deriving DecidableEq

/-- The numeric part of `default_stats` in `SorterStats.load_stats`. -/
def default_stats : Stats :=
  { total_files_processed := 0
    files_by_category := []
    total_size_moved_mb := 0
    errors := 0 }

/-- `self.stats["files_by_category"][category] =
    self.stats["files_by_category"].get(category, 0) + 1`. -/
def bump_category (m : List (String × Nat)) (category : String) :
    List (String × Nat) :=
  match m with
  | [] => [(category, 1)]
  | (k, v) :: rest =>
    if k = category then (k, v + 1) :: rest
    else (k, v) :: bump_category rest category

/-- `SorterStats.record_file_moved`. -/
def record_file_moved (s : Stats) (category : String) (file_size_mb : ℚ) :
    Stats :=
  { s with
    total_files_processed := s.total_files_processed + 1
    files_by_category := bump_category s.files_by_category category
    total_size_moved_mb := s.total_size_moved_mb + file_size_mb }

/-- `SorterStats.record_error`. -/
def record_error (s : Stats) : Stats :=
  { s with errors := s.errors + 1 }

/-! ## `safe_move`

The rename branch's `while` loop is unbounded in Python; it is embedded with
an explicit fuel argument, and the whole of `safe_move` returns `none` when
that fuel runs out (standing for non-termination, which cannot happen on a
finite filesystem). -/

/-- The candidate path `os.path.join(dest_folder, f"{base}({counter}){ext}")`
tried by the rename loop. -/
def rename_candidate (dest_folder base ext : String) (counter : Nat) :
    String :=
  path_join dest_folder (base ++ "(" ++ toString counter ++ ")" ++ ext)

/-- The `while os.path.exists(dest_path)` loop of the rename branch, entered
with `counter = 1` once the original destination is known to exist. -/
def rename_loop (fs : FS) (dest_folder base ext : String) :
    Nat → Nat → Option String
  | 0, _ => none
  | fuel + 1, counter =>
    let p := rename_candidate dest_folder base ext counter
    if fs.pathExists p then rename_loop fs dest_folder base ext fuel (counter + 1)
    else some p

/-- `safe_move(src, dest_folder, duplicate_action)`.  Returns the updated
filesystem together with the final path (`none` for the skip branch), or
`none` on fuel exhaustion of the rename loop. -/
def safe_move (fs : FS) (src dest_folder duplicate_action : String)
    (fuel : Nat) : Option (FS × Option String) :=
  let filename := basename src
  let dest_path := path_join dest_folder filename
  if fs.pathExists dest_path = false then
    some (fs.move src dest_path, some dest_path)
  else if duplicate_action = "skip" then
    some (fs, none)
  else if duplicate_action = "replace" then
    some ((fs.erase dest_path).move src dest_path, some dest_path)
  else
    match rename_loop fs dest_folder (splitext filename).1 (splitext filename).2 fuel 1 with
    | none => none
    | some p => some (fs.move src p, some p)

/-! ## Settings and per-event environment

`sort_file` reads the world through `os` calls; the environment records what
those calls would observe for the one file the event is about: whether the
path is a regular file, the current time, the file's mtime, its size (`none`
models the `OSError` branch of `os.path.getsize`), and the
`(st_size, st_mtime)` sample streams each `is_file_complete` attempt would
see.  `date_folder` is the `datetime.now().strftime(date_format)` string.
`fuel` bounds the rename `while` loop as explained at `safe_move`. -/

/-- The `SETTINGS` dictionary (the fields the claims touch). -/
structure Settings where
  organize_by_date : Bool
  duplicate_action : String
  min_file_size_kb : ℚ
  max_file_age_days : ℚ
  dry_run : Bool
  exclude_patterns : List String
deriving DecidableEq

/-- The `NOTIFICATIONS` dictionary (the fields `_process_event` reads). -/
structure Notifications where
  show_summary : Bool
  summary_interval_minutes : ℚ
deriving DecidableEq

/-- What the ambient `os`/`time`/config world answers during one event. -/
structure Env where
  file_path : String
  is_file : Bool
  now : ℚ
  mtime : ℚ
  size : Option Nat
  samples : Nat → List (Int × Int)
  date_folder : String
  settings : Settings
  extensions : List (String × List String)
  base_destination : List (String × String)
  fuel : Nat

/-- `should_exclude_file`: some pattern occurs (case-insensitively) inside
the filename. -/
def should_exclude_file (exclude_patterns : List String) (filename : String) :
    Bool :=
  exclude_patterns.any (fun pattern =>
    substr_in (str_lower pattern).data (str_lower filename).data)

/-- The default `exclude_patterns` of `ENHANCED_DEFAULT_CONFIG`. -/
def default_exclude_patterns : List String :=
  [".DS_Store", "Thumbs.db", "desktop.ini"]

/-- `s` ends with `suffix` (Python `str.endswith`). -/
def ends_with (s suffix : String) : Bool :=
  suffix.data.isSuffixOf s.data

/-- `filename.lower().endswith((".crdownload", ".part", ".tmp", ".temp"))`. -/
def is_temp_file (filename : String) : Bool :=
  ends_with (str_lower filename) ".crdownload" ||
  ends_with (str_lower filename) ".part" ||
  ends_with (str_lower filename) ".tmp" ||
  ends_with (str_lower filename) ".temp"

/-- The `for cat, extensions in EXTENSIONS.items()` lookup with `break`:
first category whose list contains the extension. -/
def find_category (extensions : List (String × List String))
    (file_ext : String) : Option String :=
  match extensions with
  | [] => none
  | (cat, exts) :: rest =>
    if file_ext ∈ exts then some cat else find_category rest file_ext

/-- `get_destination_path`: `BASE_DESTINATION[category]` (the `Option` models
the `KeyError` when the category is missing, caught by `sort_file`'s
`except`), with the optional date folder appended.  The `os.makedirs` side
effect is not modelled. -/
def get_destination_path (env : Env) (category : String) : Option String :=
  (dict_get env.base_destination category).map (fun base_dest =>
    if env.settings.organize_by_date then path_join base_dest env.date_folder
    else base_dest)

/-- `file_age = (time.time() - os.path.getmtime(file_path)) / (24 * 3600)`. -/
def file_age_days (env : Env) : ℚ :=
  (env.now - env.mtime) / (24 * 3600)

/-- `for attempt in range(1, max_retries + 1): if is_file_complete(...): break`
— a loop over the attempt numbers, stopping at the first success. -/
def attempt_loop (f : Nat → Bool) : List Nat → Bool
  | [] => false
  | a :: rest => if f a then true else attempt_loop f rest

/-- `max_retries = 7` in `sort_file`. -/
def max_retries : Nat := 7

/-- The stability-wait loop of `sort_file`: tries attempts `1..max_retries`,
calling `is_file_complete` on the samples each attempt observes; `false`
means the `for`'s `else:` branch ran (never stabilized). -/
def wait_for_completion (env : Env) : Bool :=
  attempt_loop (fun attempt => is_file_complete (env.samples attempt))
    (List.range' 1 max_retries)

/-- Python's `round(x, 2)`, on rationals.  (Float half-even rounding is
approximated by integer rounding; no claim depends on the rounding mode.) -/
def round2 (q : ℚ) : ℚ :=
  (round (q * 100) : ℤ) / 100

/-- The observable outcome of one `sort_file` call (which `return` ran, and
with what routing data). -/
inductive SortResult where
  | notFile
  | excluded
  | tempSkipped
  | tooOld
  | didNotStabilize
  | sizeError
  | tooSmall
  | noExtension
  | unknownExtension (file_ext : String)
  | destKeyError (category : String)
  | dryRunPlanned (category dest_folder : String)
  | loopFuelOut (category dest_folder : String)
  | skippedDuplicate (category dest_folder : String)
  | moved (category dest_folder final_path : String)
deriving DecidableEq

/-- The category a `sort_file` outcome was routed to, when it got that far. -/
def SortResult.routedCategory : SortResult → Option String
  | .destKeyError c => some c
  | .dryRunPlanned c _ => some c
  | .loopFuelOut c _ => some c
  | .skippedDuplicate c _ => some c
  | .moved c _ _ => some c
  | _ => none

/-- The destination folder a `sort_file` outcome was routed to. -/
def SortResult.routedFolder : SortResult → Option String
  | .dryRunPlanned _ d => some d
  | .loopFuelOut _ d => some d
  | .skippedDuplicate _ d => some d
  | .moved _ d _ => some d
  | _ => none

/-- The classification-and-move tail of `sort_file` (everything from the
`"." not in filename` check on), factored out so the early filter gates can
be discharged separately in proofs. -/
def classify_and_move (env : Env) (fs : FS) (stats : Stats)
    (filename : String) (file_size_kb : ℚ) : FS × Stats × SortResult :=
  if filename.data.contains '.' = false then (fs, stats, .noExtension)
  else
    let file_ext := str_lower (ext_token filename)
    match find_category env.extensions file_ext with
    | none => (fs, stats, .unknownExtension file_ext)
    | some category =>
      match get_destination_path env category with
      | none => (fs, record_error stats, .destKeyError category)
      | some dest_folder =>
        if env.settings.dry_run then
          (fs, stats, .dryRunPlanned category dest_folder)
        else
          match safe_move fs env.file_path dest_folder
              env.settings.duplicate_action env.fuel with
          | none => (fs, stats, .loopFuelOut category dest_folder)
          | some (fs2, none) =>
            (fs2, stats, .skippedDuplicate category dest_folder)
          | some (fs2, some final_path) =>
            (fs2,
             record_file_moved stats category (round2 (file_size_kb / 1024)),
             .moved category dest_folder final_path)

/-- `EnhancedDownloadSorter.sort_file`.  Returns the filesystem, the
statistics, and the outcome.  The `except` handler around the move is
reachable in the model only through the `KeyError` of
`get_destination_path`; `shutil.move` itself is total here. -/
def sort_file (env : Env) (fs : FS) (stats : Stats) :
    FS × Stats × SortResult :=
  if env.is_file = false then (fs, stats, .notFile)
  else
    let filename := basename env.file_path
    if should_exclude_file env.settings.exclude_patterns filename then
      (fs, stats, .excluded)
    else if is_temp_file filename then (fs, stats, .tempSkipped)
    else if env.settings.max_file_age_days > 0 ∧
        file_age_days env > env.settings.max_file_age_days then
      (fs, stats, .tooOld)
    else if wait_for_completion env = false then
      (fs, record_error stats, .didNotStabilize)
    else
      match env.size with
      | none => (fs, stats, .sizeError)
      | some size_bytes =>
        let file_size_kb : ℚ := (size_bytes : ℚ) / 1024
        if env.settings.min_file_size_kb > 0 ∧
            file_size_kb < env.settings.min_file_size_kb then
          (fs, stats, .tooSmall)
        else classify_and_move env fs stats filename file_size_kb

/-! ## The event handler (`_process_event`) -/

/-- The handler's mutable state: the `_recently_processed` debounce map and
the `last_summary` timestamp. -/
structure Handler where
  recently_processed : List (String × ℚ)
  last_summary : ℚ
deriving DecidableEq

/-- `EnhancedDownloadSorter._process_event`.  Returns the new handler state,
the filesystem, the statistics, and whether `sort_file` was invoked. -/
def process_event (env : Env) (notif : Notifications) (h : Handler)
    (fs : FS) (stats : Stats) : Handler × FS × Stats × Bool :=
  let now := env.now
  let h1 :=
    if notif.show_summary ∧
        now - h.last_summary > notif.summary_interval_minutes * 60 then
      { h with last_summary := now }
    else h
  let last_time := (dict_get h1.recently_processed env.file_path).getD 0
  if now - last_time < 10 then (h1, fs, stats, false)
  else
    let h2 :=
      { h1 with
        recently_processed := dict_set h1.recently_processed env.file_path now }
    let result := sort_file env fs stats
    (h2, result.1, result.2.1, true)

/-! ## Helper lemmas -/

/-- `substr_in` decides contiguous-substring occurrence. -/
theorem substr_in_iff_infix (n h : List Char) :
    substr_in n h = true ↔ List.IsInfix n h := by
  induction h with
  | nil => simp [substr_in, List.infix_nil, List.isEmpty_iff]
  | cons a t ih =>
    simp [substr_in, ih, List.infix_cons_iff, List.isPrefixOf_iff_prefix]

/-- C10: Exclusion is case-insensitive substring matching:
`should_exclude_file filename` returns `true` if and only if some configured
pattern occurs as a case-insensitive contiguous substring anywhere in the
filename; in particular `"my.DS_Store.backup"` is excluded under the default
patterns even though no pattern equals its name or its extension. -/
theorem should_exclude_file_iff_substring :
    (∀ (exclude_patterns : List String) (filename : String),
        should_exclude_file exclude_patterns filename = true ↔
          ∃ pattern ∈ exclude_patterns,
            List.IsInfix (str_lower pattern).data (str_lower filename).data) ∧
      should_exclude_file default_exclude_patterns "my.DS_Store.backup" = true := by
  constructor
  · intro exclude_patterns filename
    simp [should_exclude_file, substr_in_iff_infix]
  · decide

/-! ## C9: statistics invariant -/

/-- The sum of all per-category counters. -/
def sum_category_counts (s : Stats) : Nat :=
  (s.files_by_category.map (fun kv => kv.2)).sum

/-- The implicit invariant: the total equals the sum of the category
counters. -/
def stats_inv (s : Stats) : Prop :=
  s.total_files_processed = sum_category_counts s

/-- Bumping one category raises the summed counters by exactly one. -/
theorem sum_bump_category (m : List (String × Nat)) (c : String) :
    ((bump_category m c).map (fun kv => kv.2)).sum =
      (m.map (fun kv => kv.2)).sum + 1 := by
  induction m with
  | nil => simp [bump_category]
  | cons kv rest ih =>
    obtain ⟨k, v⟩ := kv
    by_cases hk : k = c <;> simp [bump_category, hk, ih] <;> omega

/-- C9: Stats consistency invariant: starting from the default stats state,
`total_files_processed = sum of all counts in files_by_category` is
preserved by every stats operation — `record_file_moved` increments the
total and exactly one category count by 1 each, and `record_error` leaves
both sides unchanged. -/
theorem stats_invariant_preserved :
    stats_inv default_stats ∧
      (∀ (s : Stats) (category : String) (mb : ℚ), stats_inv s →
        stats_inv (record_file_moved s category mb)) ∧
      (∀ (s : Stats) (category : String) (mb : ℚ),
        (record_file_moved s category mb).total_files_processed =
            s.total_files_processed + 1 ∧
          sum_category_counts (record_file_moved s category mb) =
            sum_category_counts s + 1) ∧
      (∀ s : Stats, stats_inv s → stats_inv (record_error s)) ∧
      (∀ s : Stats,
        (record_error s).total_files_processed = s.total_files_processed ∧
          (record_error s).files_by_category = s.files_by_category) := by
  refine ⟨rfl, ?_, ?_, ?_, ?_⟩
  · intro s category mb hs
    simp only [stats_inv, record_file_moved, sum_category_counts] at *
    simp [sum_bump_category, hs]
  · intro s category mb
    exact ⟨rfl, by simp [sum_category_counts, record_file_moved, sum_bump_category]⟩
  · intro s hs
    simpa [stats_inv, record_error, sum_category_counts] using hs
  · intro s
    exact ⟨rfl, rfl⟩

/-- Witness for C9: the invariant-preservation clauses applied at a concrete
stats state. -/
theorem stats_invariant_preserved_witness :
    stats_inv (record_file_moved default_stats "Documents" 1) ∧
      stats_inv (record_error default_stats) :=
  ⟨stats_invariant_preserved.2.1 default_stats "Documents" 1 rfl,
   stats_invariant_preserved.2.2.2.1 default_stats rfl⟩

/-! ## C2: debounce -/

/-- C2: Debounce: if the last-seen timestamp recorded for the path in
`_recently_processed` (default `0`) is less than 10 seconds before the
current time, `_process_event` returns without invoking `sort_file` and
without updating the map; otherwise it records the current time for the path
and then invokes `sort_file`. -/
theorem process_event_debounce (env : Env) (notif : Notifications)
    (h : Handler) (fs : FS) (stats : Stats) :
    (env.now - (dict_get h.recently_processed env.file_path).getD 0 < 10 →
      (process_event env notif h fs stats).1.recently_processed =
          h.recently_processed ∧
        (process_event env notif h fs stats).2.1 = fs ∧
        (process_event env notif h fs stats).2.2.1 = stats ∧
        (process_event env notif h fs stats).2.2.2 = false) ∧
    (¬ env.now - (dict_get h.recently_processed env.file_path).getD 0 < 10 →
      (process_event env notif h fs stats).1.recently_processed =
          dict_set h.recently_processed env.file_path env.now ∧
        (process_event env notif h fs stats).2.1 = (sort_file env fs stats).1 ∧
        (process_event env notif h fs stats).2.2.1 =
          (sort_file env fs stats).2.1 ∧
        (process_event env notif h fs stats).2.2.2 = true) := by
  by_cases hs : notif.show_summary ∧
      env.now - h.last_summary > notif.summary_interval_minutes * 60 <;>
    constructor <;> intro hd <;>
      simp [process_event, hs, hd]

/-! ## Shared concrete inputs for witnesses -/

/-- The default settings of `ENHANCED_DEFAULT_CONFIG`. -/
def settings0 : Settings :=
  { organize_by_date := false
    duplicate_action := "rename"
    min_file_size_kb := 0
    max_file_age_days := 0
    dry_run := false
    exclude_patterns := default_exclude_patterns }

/-- A concrete event environment: a stable 2 KiB PDF download. -/
def env0 : Env :=
  { file_path := "/dl/a.pdf"
    is_file := true
    now := 100
    mtime := 0
    size := some 2048
    samples := fun _ => [(2048, 50), (2048, 50), (2048, 50)]
    date_folder := "2026/10"
    settings := settings0
    extensions := [("Documents", ["pdf", "txt"]), ("Pictures", ["jpg"])]
    base_destination := [("Documents", "/docs"), ("Pictures", "/pics")]
    fuel := 3 }

/-- A concrete filesystem holding the download and one unrelated file. -/
def fs0 : FS := ⟨[("/dl/a.pdf", [10, 20]), ("/docs/b.txt", [7])]⟩

/-- Notifications with the periodic summary disabled. -/
def notif0 : Notifications := ⟨false, 60⟩

/-- Handler state that saw the path 5 seconds ago. -/
def handler95 : Handler := ⟨[("/dl/a.pdf", 95)], 0⟩

/-- Handler state with an empty debounce map. -/
def handler_empty : Handler := ⟨[], 0⟩

/-- Witness for C2: at `now = 100`, a path last seen at `95` is debounced,
and a never-seen path is processed. -/
theorem process_event_debounce_witness :
    ((process_event env0 notif0 handler95 fs0 default_stats).1.recently_processed =
        handler95.recently_processed ∧
      (process_event env0 notif0 handler95 fs0 default_stats).2.1 = fs0 ∧
      (process_event env0 notif0 handler95 fs0 default_stats).2.2.1 = default_stats ∧
      (process_event env0 notif0 handler95 fs0 default_stats).2.2.2 = false) ∧
    ((process_event env0 notif0 handler_empty fs0 default_stats).1.recently_processed =
        dict_set handler_empty.recently_processed env0.file_path env0.now ∧
      (process_event env0 notif0 handler_empty fs0 default_stats).2.1 =
        (sort_file env0 fs0 default_stats).1 ∧
      (process_event env0 notif0 handler_empty fs0 default_stats).2.2.1 =
        (sort_file env0 fs0 default_stats).2.1 ∧
      (process_event env0 notif0 handler_empty fs0 default_stats).2.2.2 = true) :=
  ⟨(process_event_debounce env0 notif0 handler95 fs0 default_stats).1
      (by simp [env0, handler95, dict_get]; norm_num),
   (process_event_debounce env0 notif0 handler_empty fs0 default_stats).2
      (by simp [env0, handler_empty, dict_get]; norm_num)⟩

/-! ## C5: dry-run frame property -/

/-- C5: Dry-run simulation: whenever `dry_run` is true, `sort_file` returns
before calling `safe_move`: the filesystem is unchanged (no file moved,
removed, or renamed), the statistics `total_files_processed`,
`files_by_category` and `total_size_moved_mb` are unchanged, and the outcome
is never a move. -/
theorem sort_file_dry_run (env : Env) (fs : FS) (stats : Stats)
    (hdry : env.settings.dry_run = true) :
    (sort_file env fs stats).1 = fs ∧
    (sort_file env fs stats).2.1.total_files_processed =
      stats.total_files_processed ∧
    (sort_file env fs stats).2.1.files_by_category = stats.files_by_category ∧
    (sort_file env fs stats).2.1.total_size_moved_mb =
      stats.total_size_moved_mb ∧
    ∀ category dest_folder final_path,
      (sort_file env fs stats).2.2 ≠
        SortResult.moved category dest_folder final_path := by
  have hframe : ∃ res, (∀ c d p, res ≠ SortResult.moved c d p) ∧
      (sort_file env fs stats = (fs, stats, res) ∨
        sort_file env fs stats = (fs, record_error stats, res)) := by
    by_cases hif : env.is_file = false
    · exact ⟨.notFile, by simp, Or.inl (by simp [sort_file, hif])⟩
    by_cases hexc : should_exclude_file env.settings.exclude_patterns
        (basename env.file_path) = true
    · exact ⟨.excluded, by simp, Or.inl (by simp [sort_file, hif, hexc])⟩
    by_cases htmp : is_temp_file (basename env.file_path) = true
    · exact ⟨.tempSkipped, by simp, Or.inl (by simp [sort_file, hif, hexc, htmp])⟩
    by_cases hage : env.settings.max_file_age_days > 0 ∧
        file_age_days env > env.settings.max_file_age_days
    · exact ⟨.tooOld, by simp,
        Or.inl (by simp [sort_file, hif, hexc, htmp, hage])⟩
    by_cases hwait : wait_for_completion env = false
    · exact ⟨.didNotStabilize, by simp,
        Or.inr (by simp [sort_file, hif, hexc, htmp, hage, hwait])⟩
    rcases hsz : env.size with _ | size_bytes
    · exact ⟨.sizeError, by simp,
        Or.inl (by simp [sort_file, hif, hexc, htmp, hage, hwait, hsz])⟩
    by_cases hmin : env.settings.min_file_size_kb > 0 ∧
        (size_bytes : ℚ) / 1024 < env.settings.min_file_size_kb
    · exact ⟨.tooSmall, by simp,
        Or.inl (by simp [sort_file, hif, hexc, htmp, hage, hwait, hsz, hmin])⟩
    by_cases hdot : (basename env.file_path).data.contains '.' = false
    · have hdot2 : ¬('.' ∈ (basename env.file_path).data) := by simpa using hdot
      exact ⟨.noExtension, by simp,
        Or.inl (by simp [sort_file, classify_and_move, hif, hexc, htmp, hage,
          hwait, hsz, hmin, hdot2])⟩
    have hdot' : '.' ∈ (basename env.file_path).data := by simpa using hdot
    rcases hcat : find_category env.extensions
        (str_lower (ext_token (basename env.file_path))) with _ | category
    · exact ⟨.unknownExtension (str_lower (ext_token (basename env.file_path))),
        by simp,
        Or.inl (by simp [sort_file, classify_and_move, hif, hexc, htmp, hage,
          hwait, hsz, hmin, hdot', hcat])⟩
    rcases hdest : get_destination_path env category with _ | dest_folder
    · exact ⟨.destKeyError category, by simp,
        Or.inr (by simp [sort_file, classify_and_move, hif, hexc, htmp, hage,
          hwait, hsz, hmin, hdot', hcat, hdest])⟩
    exact ⟨.dryRunPlanned category dest_folder, by simp,
      Or.inl (by simp [sort_file, classify_and_move, hif, hexc, htmp, hage,
        hwait, hsz, hmin, hdot', hcat, hdest, hdry])⟩
  obtain ⟨res, hres, hcase | hcase⟩ := hframe <;> rw [hcase] <;>
    exact ⟨rfl, rfl, rfl, rfl, fun c d p => hres c d p⟩

/-- A dry-run variant of the concrete environment. -/
def env_dry : Env :=
  { env0 with settings := { settings0 with dry_run := true } }

/-- Witness for C5 at the concrete dry-run environment. -/
theorem sort_file_dry_run_witness :
    (sort_file env_dry fs0 default_stats).1 = fs0 ∧
    (sort_file env_dry fs0 default_stats).2.1.total_files_processed =
      default_stats.total_files_processed ∧
    (sort_file env_dry fs0 default_stats).2.1.files_by_category =
      default_stats.files_by_category ∧
    (sort_file env_dry fs0 default_stats).2.1.total_size_moved_mb =
      default_stats.total_size_moved_mb ∧
    ∀ category dest_folder final_path,
      (sort_file env_dry fs0 default_stats).2.2 ≠
        SortResult.moved category dest_folder final_path :=
  sort_file_dry_run env_dry fs0 default_stats rfl

/-! ## Gate lemma: past the filters, `sort_file` is the classification tail -/

/-- Once a file passes the filter gates (regular file, not excluded, not
temporary, not too old, stabilized, readable size, not too small),
`sort_file` is exactly `classify_and_move`. -/
theorem sort_file_eq_classify (env : Env) (fs : FS) (stats : Stats)
    (size_bytes : Nat)
    (hif : env.is_file = true)
    (hexc : should_exclude_file env.settings.exclude_patterns
      (basename env.file_path) = false)
    (htmp : is_temp_file (basename env.file_path) = false)
    (hage : ¬(env.settings.max_file_age_days > 0 ∧
      file_age_days env > env.settings.max_file_age_days))
    (hwait : wait_for_completion env = true)
    (hsz : env.size = some size_bytes)
    (hmin : ¬(env.settings.min_file_size_kb > 0 ∧
      (size_bytes : ℚ) / 1024 < env.settings.min_file_size_kb)) :
    sort_file env fs stats =
      classify_and_move env fs stats (basename env.file_path)
        ((size_bytes : ℚ) / 1024) := by
  simp [sort_file, hif, hexc, htmp, hage, hwait, hsz, hmin]

/-! ## C7: the stability retry loop -/

/-- A loop over attempts that all fail finishes with `false` (the `for`'s
`else:` branch). -/
theorem attempt_loop_false (f : Nat → Bool) (l : List Nat)
    (h : ∀ a ∈ l, f a = false) : attempt_loop f l = false := by
  induction l with
  | nil => rfl
  | cons a t ih =>
    have ha := h a (by simp)
    simp [attempt_loop, ha]
    exact ih fun b hb => h b (by simp [hb])

/-- The attempt loop looks only at the listed attempts. -/
theorem attempt_loop_congr (f g : Nat → Bool) (l : List Nat)
    (h : ∀ a ∈ l, f a = g a) : attempt_loop f l = attempt_loop g l := by
  induction l with
  | nil => rfl
  | cons a t ih =>
    have ha := h a (by simp)
    simp only [attempt_loop, ha]
    rw [ih fun b hb => h b (by simp [hb])]

/-- C7: Failure path of the stability retry: `sort_file` calls
`is_file_complete` at most `max_retries = 7` times (its stability verdict
depends only on the sample streams of attempts `1..7`); if every attempt
returns `false`, it increments the stats `errors` counter by exactly 1 and
returns without moving the file (filesystem unchanged).  The constant
2-second `time.sleep` between attempts is wall-clock behaviour outside the
state model. -/
theorem sort_file_stability_failure (env : Env) (fs : FS) (stats : Stats)
    (hif : env.is_file = true)
    (hexc : should_exclude_file env.settings.exclude_patterns
      (basename env.file_path) = false)
    (htmp : is_temp_file (basename env.file_path) = false)
    (hage : ¬(env.settings.max_file_age_days > 0 ∧
      file_age_days env > env.settings.max_file_age_days))
    (hfail : ∀ attempt, 1 ≤ attempt → attempt ≤ max_retries →
      is_file_complete (env.samples attempt) = false) :
    sort_file env fs stats = (fs, record_error stats, .didNotStabilize) ∧
      (record_error stats).errors = stats.errors + 1 ∧
      ∀ env' : Env, (∀ attempt, 1 ≤ attempt → attempt ≤ max_retries →
          env'.samples attempt = env.samples attempt) →
        attempt_loop (fun a => is_file_complete (env'.samples a))
            (List.range' 1 max_retries) =
          attempt_loop (fun a => is_file_complete (env.samples a))
            (List.range' 1 max_retries) := by
  have hwait : wait_for_completion env = false := by
    apply attempt_loop_false
    intro a ha
    rw [List.mem_range'_1] at ha
    exact hfail a ha.1 (by omega)
  refine ⟨by simp [sort_file, hif, hexc, htmp, hage, hwait], rfl, ?_⟩
  intro env' hagree
  apply attempt_loop_congr
  intro a ha
  rw [List.mem_range'_1] at ha
  rw [hagree a ha.1 (by omega)]

/-- An environment whose file never stabilizes: every poll sees a changed
`(st_size, st_mtime)` sample. -/
def env_fail : Env :=
  { env0 with samples := fun _ => [(1, 1), (2, 2), (3, 3)] }

/-- Witness for C7 at the never-stabilizing environment. -/
theorem sort_file_stability_failure_witness :
    sort_file env_fail fs0 default_stats =
        (fs0, record_error default_stats, .didNotStabilize) ∧
      (record_error default_stats).errors = default_stats.errors + 1 ∧
      ∀ env' : Env, (∀ attempt, 1 ≤ attempt → attempt ≤ max_retries →
          env'.samples attempt = env_fail.samples attempt) →
        attempt_loop (fun a => is_file_complete (env'.samples a))
            (List.range' 1 max_retries) =
          attempt_loop (fun a => is_file_complete (env_fail.samples a))
            (List.range' 1 max_retries) :=
  have hcheck : is_file_complete [((1 : Int), (1 : Int)), (2, 2), (3, 3)] = false := by
    decide
  sort_file_stability_failure env_fail fs0 default_stats rfl (by decide)
    (by decide) (by simp [env_fail, env0, settings0])
    (fun _ _ _ => hcheck)

/-! ## C6: skip-action atomicity -/

/-- C6: Skip-action atomicity: with `duplicate_action = "skip"` and the
filename already present in the destination, `safe_move` returns `None` and
the filesystem is unchanged (source stays, existing destination file stays);
consequently a `sort_file` call reaching that move leaves the statistics
record untouched. -/
theorem safe_move_skip_frame :
    (∀ (fs : FS) (src dest_folder : String) (fuel : Nat),
        fs.pathExists (path_join dest_folder (basename src)) = true →
        safe_move fs src dest_folder "skip" fuel = some (fs, none)) ∧
    (∀ (env : Env) (fs : FS) (stats : Stats) (size_bytes : Nat)
        (category dest_folder : String),
        env.is_file = true →
        should_exclude_file env.settings.exclude_patterns
          (basename env.file_path) = false →
        is_temp_file (basename env.file_path) = false →
        ¬(env.settings.max_file_age_days > 0 ∧
          file_age_days env > env.settings.max_file_age_days) →
        wait_for_completion env = true →
        env.size = some size_bytes →
        ¬(env.settings.min_file_size_kb > 0 ∧
          (size_bytes : ℚ) / 1024 < env.settings.min_file_size_kb) →
        '.' ∈ (basename env.file_path).data →
        find_category env.extensions
          (str_lower (ext_token (basename env.file_path))) = some category →
        get_destination_path env category = some dest_folder →
        env.settings.dry_run = false →
        env.settings.duplicate_action = "skip" →
        fs.pathExists (path_join dest_folder (basename env.file_path)) = true →
        sort_file env fs stats =
          (fs, stats, .skippedDuplicate category dest_folder)) := by
  have hskip : ∀ (fs : FS) (src dest_folder : String) (fuel : Nat),
      fs.pathExists (path_join dest_folder (basename src)) = true →
      safe_move fs src dest_folder "skip" fuel = some (fs, none) := by
    intro fs src dest_folder fuel hdup
    simp [safe_move, hdup]
  refine ⟨hskip, ?_⟩
  intro env fs stats size_bytes category dest_folder hif hexc htmp hage hwait
    hsz hmin hdot hcat hdest hdry hact hdup
  rw [sort_file_eq_classify env fs stats size_bytes hif hexc htmp hage hwait
    hsz hmin]
  have hmove := hskip fs env.file_path dest_folder env.fuel hdup
  rw [← hact] at hmove
  simp [classify_and_move, hdot, hcat, hdest, hdry, hmove]

/-- A skip-configured variant of the concrete environment. -/
def env_skip : Env :=
  { env0 with settings := { settings0 with duplicate_action := "skip" } }

/-- A filesystem where the destination already holds `a.pdf`. -/
def fs_dup : FS := ⟨[("/dl/a.pdf", [10, 20]), ("/docs/a.pdf", [9])]⟩

/-- Witness for C6: both clauses applied at the concrete skip scenario. -/
theorem safe_move_skip_frame_witness :
    safe_move fs_dup "/dl/a.pdf" "/docs" "skip" 3 = some (fs_dup, none) ∧
      sort_file env_skip fs_dup default_stats =
        (fs_dup, default_stats, .skippedDuplicate "Documents" "/docs") :=
  ⟨safe_move_skip_frame.1 fs_dup "/dl/a.pdf" "/docs" 3 (by decide),
   safe_move_skip_frame.2 env_skip fs_dup default_stats 2048 "Documents" "/docs"
     rfl (by decide) (by decide) (by simp [env_skip, env0, settings0])
     (by decide) rfl (by simp [env_skip, env0, settings0]) (by decide)
     (by decide) (by decide) rfl rfl (by decide)⟩

/-! ## C8: content-independence of duplicate handling

`get_file_hash` (the MD5 helper) is defined in the script but called by no
other function; `safe_move` consults only `os.path.exists` on names.  We
state that as an extensional hyperproperty: over any two filesystems with
the same paths but arbitrary contents, `safe_move` takes the same action,
returns the same path, and produces shape-equal filesystems. -/

/-- Two filesystems with identical path lists, differing at most in the byte
contents of the files. -/
def FS.sameShape (fs1 fs2 : FS) : Prop :=
  fs1.files.map Prod.fst = fs2.files.map Prod.fst

/-- Key-only lookup success agrees across equal key lists. -/
theorem dict_get_isSome_congr {α β : Type} :
    ∀ (l1 : List (String × α)) (l2 : List (String × β)),
      l1.map Prod.fst = l2.map Prod.fst → ∀ k,
      (dict_get l1 k).isSome = (dict_get l2 k).isSome := by
  intro l1
  induction l1 with
  | nil =>
    intro l2 hh k
    cases l2 with
    | nil => rfl
    | cons b s => simp at hh
  | cons a t ih =>
    intro l2 hh k
    obtain ⟨ak, av⟩ := a
    cases l2 with
    | nil => simp at hh
    | cons b s =>
      obtain ⟨bk, bv⟩ := b
      simp only [List.map_cons, List.cons.injEq] at hh
      obtain ⟨h1, h2⟩ := hh
      by_cases hak : ak = k
      · simp [dict_get, hak, h1 ▸ hak]
      · simp [dict_get, hak, h1 ▸ hak, ih s h2 k]

/-- Filtering out one key preserves equality of key lists. -/
theorem map_fst_filter_ne {α β : Type} :
    ∀ (l1 : List (String × α)) (l2 : List (String × β)),
      l1.map Prod.fst = l2.map Prod.fst → ∀ p,
      (l1.filter (fun kv => kv.1 ≠ p)).map Prod.fst =
        (l2.filter (fun kv => kv.1 ≠ p)).map Prod.fst := by
  intro l1
  induction l1 with
  | nil =>
    intro l2 hh p
    cases l2 with
    | nil => rfl
    | cons b s => simp at hh
  | cons a t ih =>
    intro l2 hh p
    obtain ⟨ak, av⟩ := a
    cases l2 with
    | nil => simp at hh
    | cons b s =>
      obtain ⟨bk, bv⟩ := b
      simp only [List.map_cons, List.cons.injEq] at hh
      obtain ⟨h1, h2⟩ := hh
      subst h1
      have ih' := ih s h2 p
      simp only [ne_eq, decide_not] at ih'
      by_cases hap : ak = p
      · simp [List.filter_cons, hap, ih']
      · simp [List.filter_cons, hap, ih']

/-- `os.remove` preserves shape equality. -/
theorem erase_sameShape (fs1 fs2 : FS) (h : FS.sameShape fs1 fs2)
    (p : String) : FS.sameShape (fs1.erase p) (fs2.erase p) :=
  map_fst_filter_ne fs1.files fs2.files h p

/-- `shutil.move` preserves shape equality. -/
theorem move_sameShape (fs1 fs2 : FS) (h : FS.sameShape fs1 fs2)
    (src dst : String) : FS.sameShape (fs1.move src dst) (fs2.move src dst) := by
  have hs := dict_get_isSome_congr fs1.files fs2.files h src
  unfold FS.move
  rcases h1 : dict_get fs1.files src with _ | c1 <;>
    rcases h2 : dict_get fs2.files src with _ | c2
  · exact h
  · rw [h1, h2] at hs; simp at hs
  · rw [h1, h2] at hs; simp at hs
  · show FS.sameShape ⟨(fs1.erase src).files ++ [(dst, c1)]⟩
      ⟨(fs2.erase src).files ++ [(dst, c2)]⟩
    have := erase_sameShape fs1 fs2 h src
    simp only [FS.sameShape, List.map_append] at this ⊢
    simp [this]

/-- The rename loop consults only `os.path.exists`, so it agrees across
shape-equal filesystems. -/
theorem rename_loop_congr (fs1 fs2 : FS) (d b e : String)
    (hpe : ∀ p, fs1.pathExists p = fs2.pathExists p) :
    ∀ (fuel counter : Nat),
      rename_loop fs1 d b e fuel counter = rename_loop fs2 d b e fuel counter := by
  intro fuel
  induction fuel with
  | zero => intro counter; rfl
  | succ n ih =>
    intro counter
    simp only [rename_loop, hpe]
    rw [ih]

/-- C8: Content-independence of duplicate handling: for any two filesystems
that differ only in the byte contents of the files involved, `safe_move`
takes the same action and returns the same path (the returned `Option`
path, including the skip outcome, is identical), and the resulting
filesystems again agree on all paths.  (`get_file_hash` is invoked by no
other function of the script, so no content can influence the decision.) -/
theorem safe_move_content_independent (fs1 fs2 : FS)
    (src dest_folder duplicate_action : String) (fuel : Nat)
    (h : FS.sameShape fs1 fs2) :
    Option.map (fun r => r.2)
        (safe_move fs1 src dest_folder duplicate_action fuel) =
      Option.map (fun r => r.2)
        (safe_move fs2 src dest_folder duplicate_action fuel) ∧
    ∀ r1 r2, safe_move fs1 src dest_folder duplicate_action fuel = some r1 →
      safe_move fs2 src dest_folder duplicate_action fuel = some r2 →
      FS.sameShape r1.1 r2.1 := by
  have hpe : ∀ p, fs1.pathExists p = fs2.pathExists p := fun p =>
    dict_get_isSome_congr fs1.files fs2.files h p
  have hrl := rename_loop_congr fs1 fs2 dest_folder
    (splitext (basename src)).1 (splitext (basename src)).2 hpe
  simp only [safe_move, ← hpe, ← hrl]
  split_ifs with h1 h2 h3
  · refine ⟨rfl, ?_⟩
    intro r1 r2 e1 e2
    simp only [Option.some.injEq] at e1 e2
    subst e1; subst e2
    exact move_sameShape fs1 fs2 h _ _
  · exact ⟨rfl, fun r1 r2 e1 e2 => by
      simp only [Option.some.injEq] at e1 e2
      subst e1; subst e2
      exact h⟩
  · refine ⟨rfl, ?_⟩
    intro r1 r2 e1 e2
    simp only [Option.some.injEq] at e1 e2
    subst e1; subst e2
    exact move_sameShape (fs1.erase _) (fs2.erase _)
      (erase_sameShape fs1 fs2 h _) _ _
  · rcases hr : rename_loop fs1 dest_folder (splitext (basename src)).1
        (splitext (basename src)).2 fuel 1 with _ | p
    · simp [hr]
    · refine ⟨by simp [hr], ?_⟩
      intro r1 r2 e1 e2
      simp only [Option.some.injEq] at e1 e2
      subst e1; subst e2
      exact move_sameShape fs1 fs2 h _ _

/-- Same paths as `fs_dup`, different contents. -/
def fs_dup_alt : FS := ⟨[("/dl/a.pdf", [1, 2, 3]), ("/docs/a.pdf", [])]⟩

/-- Witness for C8: the hyperproperty applied at two concrete filesystems
that differ only in contents. -/
theorem safe_move_content_independent_witness :
    (Option.map (fun r => r.2) (safe_move fs_dup "/dl/a.pdf" "/docs" "rename" 3) =
      Option.map (fun r => r.2)
        (safe_move fs_dup_alt "/dl/a.pdf" "/docs" "rename" 3)) ∧
    ∀ r1 r2, safe_move fs_dup "/dl/a.pdf" "/docs" "rename" 3 = some r1 →
      safe_move fs_dup_alt "/dl/a.pdf" "/docs" "rename" 3 = some r2 →
      FS.sameShape r1.1 r2.1 :=
  safe_move_content_independent fs_dup fs_dup_alt "/dl/a.pdf" "/docs" "rename" 3
    (show fs_dup.files.map Prod.fst = fs_dup_alt.files.map Prod.fst by decide)

/-! ## C4: extension routing -/

/-- `find_category` returns the first category, in configuration iteration
order, whose extension list contains the extension. -/
theorem find_category_first (l1 : List (String × List String)) (c : String)
    (cl : List String) (l2 : List (String × List String)) (e : String)
    (he : e ∈ cl) (hfirst : ∀ p ∈ l1, e ∉ p.2) :
    find_category (l1 ++ (c, cl) :: l2) e = some c := by
  induction l1 with
  | nil => simp [find_category, he]
  | cons a t ih =>
    obtain ⟨ak, al⟩ := a
    have ha : e ∉ al := by simpa using hfirst (ak, al) (by simp)
    simp only [List.cons_append, find_category, ha, if_neg]
    exact ih fun p hp => hfirst p (by simp [hp])

/-- C4: Extension routing: past the filter gates, a file whose name contains
a `'.'` is classified by the lowercased substring after the last `'.'` and
routed to the destination folder of the first category (in configuration
iteration order) whose extension list contains that string; a file with no
`'.'`, or whose extension appears in no category's list, is left in place
and not moved (filesystem and statistics unchanged). -/
theorem sort_file_extension_routing (env : Env) (fs : FS) (stats : Stats)
    (size_bytes : Nat)
    (hif : env.is_file = true)
    (hexc : should_exclude_file env.settings.exclude_patterns
      (basename env.file_path) = false)
    (htmp : is_temp_file (basename env.file_path) = false)
    (hage : ¬(env.settings.max_file_age_days > 0 ∧
      file_age_days env > env.settings.max_file_age_days))
    (hwait : wait_for_completion env = true)
    (hsz : env.size = some size_bytes)
    (hmin : ¬(env.settings.min_file_size_kb > 0 ∧
      (size_bytes : ℚ) / 1024 < env.settings.min_file_size_kb)) :
    ((basename env.file_path).data.contains '.' = false →
      sort_file env fs stats = (fs, stats, .noExtension)) ∧
    ('.' ∈ (basename env.file_path).data →
      find_category env.extensions
        (str_lower (ext_token (basename env.file_path))) = none →
      sort_file env fs stats =
        (fs, stats,
          .unknownExtension (str_lower (ext_token (basename env.file_path))))) ∧
    (∀ (l1 l2 : List (String × List String)) (c : String) (cl : List String)
        (base_dest : String),
      '.' ∈ (basename env.file_path).data →
      env.extensions = l1 ++ (c, cl) :: l2 →
      str_lower (ext_token (basename env.file_path)) ∈ cl →
      (∀ p ∈ l1, str_lower (ext_token (basename env.file_path)) ∉ p.2) →
      dict_get env.base_destination c = some base_dest →
      (sort_file env fs stats).2.2.routedCategory = some c ∧
        (sort_file env fs stats).2.2.routedFolder =
          some (if env.settings.organize_by_date then
            path_join base_dest env.date_folder else base_dest)) := by
  rw [sort_file_eq_classify env fs stats size_bytes hif hexc htmp hage hwait
    hsz hmin]
  refine ⟨?_, ?_, ?_⟩
  · intro hdot
    have hdot2 : ¬('.' ∈ (basename env.file_path).data) := by simpa using hdot
    simp [classify_and_move, hdot2]
  · intro hdot hcat
    simp [classify_and_move, hdot, hcat]
  · intro l1 l2 c cl base_dest hdot hexts hin hfirst hbd
    have hcat : find_category env.extensions
        (str_lower (ext_token (basename env.file_path))) = some c := by
      rw [hexts]
      exact find_category_first l1 c cl l2 _ hin hfirst
    have hgd : get_destination_path env c =
        some (if env.settings.organize_by_date then
          path_join base_dest env.date_folder else base_dest) := by
      simp [get_destination_path, hbd]
    by_cases hdry : env.settings.dry_run = true
    · simp [classify_and_move, hdot, hcat, hgd, hdry,
        SortResult.routedCategory, SortResult.routedFolder]
    · rcases hm : safe_move fs env.file_path
          (if env.settings.organize_by_date then
            path_join base_dest env.date_folder else base_dest)
          env.settings.duplicate_action env.fuel with _ | ⟨fs2, op⟩
      · simp [classify_and_move, hdot, hcat, hgd, hdry, hm,
          SortResult.routedCategory, SortResult.routedFolder]
      · rcases op with _ | final_path <;>
          simp [classify_and_move, hdot, hcat, hgd, hdry, hm,
            SortResult.routedCategory, SortResult.routedFolder]

/-- A concrete environment whose file name has no dot. -/
def env_nodot : Env := { env0 with file_path := "/dl/noext" }

/-- A concrete environment with an extension no category lists. -/
def env_unknown : Env := { env0 with file_path := "/dl/a.xyz" }

/-- Witness for C4: the three routing clauses at concrete files. -/
theorem sort_file_extension_routing_witness :
    sort_file env_nodot fs0 default_stats = (fs0, default_stats, .noExtension) ∧
    sort_file env_unknown fs0 default_stats =
      (fs0, default_stats,
        .unknownExtension (str_lower (ext_token (basename env_unknown.file_path)))) ∧
    ((sort_file env0 fs0 default_stats).2.2.routedCategory = some "Documents" ∧
      (sort_file env0 fs0 default_stats).2.2.routedFolder =
        some (if env0.settings.organize_by_date then
          path_join "/docs" env0.date_folder else "/docs")) :=
  ⟨(sort_file_extension_routing env_nodot fs0 default_stats 2048 rfl
      (by decide) (by decide) (by simp [env_nodot, env0, settings0])
      (by decide) rfl (by simp [env_nodot, env0, settings0])).1 (by decide),
   (sort_file_extension_routing env_unknown fs0 default_stats 2048 rfl
      (by decide) (by decide) (by simp [env_unknown, env0, settings0])
      (by decide) rfl (by simp [env_unknown, env0, settings0])).2.1
      (by decide) (by decide),
   (sort_file_extension_routing env0 fs0 default_stats 2048 rfl
      (by decide) (by decide) (by simp [env0, settings0])
      (by decide) rfl (by simp [env0, settings0])).2.2
      [] [("Pictures", ["jpg"])] "Documents" ["pdf", "txt"] "/docs"
      (by decide) rfl (by decide) (by simp) rfl⟩

/-! ## C3: the duplicate renaming scheme

The claim describes the rename split as "base + ext split at the last dot".
The code uses `os.path.splitext`, which differs on names whose characters
before the last dot are all dots (dotfiles): `".gitignore"` splits as
`(".gitignore", "")`, not `("", ".gitignore")`.  The counterexample below
exhibits the divergence; the amended claim (with `splitext`) is then proved,
including minimality of the counter and that no existing file is
overwritten. -/

/-- The claim's description of the rename split, taken literally: base and
extension split at the last dot (the dot going with the extension), with no
special case for leading-dot names.  Kept separate from `splitext`, which
embeds the code's `os.path.splitext`. -/
def split_at_last_dot (filename : String) : String × String :=
  if filename.data.contains '.' = false then (filename, "")
  else
    let tail := after_last '.' filename.data
    (⟨filename.data.take (filename.data.length - tail.length - 1)⟩,
     ⟨'.' :: tail⟩)

/-- The candidate path tried by the rename loop for `src`'s filename, using
the code's `os.path.splitext` split. -/
def candidate_path (src dest_folder : String) (k : Nat) : String :=
  rename_candidate dest_folder (splitext (basename src)).1
    (splitext (basename src)).2 k

/-- A filesystem for the dotfile counterexample: the destination already
holds `.gitignore`, and neither rename candidate exists. -/
def fs_c3 : FS := ⟨[("/dl/.gitignore", [1]), ("/d/.gitignore", [2])]⟩

/-- Counterexample to C3 as stated: for the dotfile `".gitignore"` the code
moves the duplicate to `"/d/.gitignore(1)"`, while the claim's
split-at-the-last-dot formula predicts `"/d/(1).gitignore"` (which is free,
so the claim's smallest `k` is `1`); the two paths differ. -/
theorem safe_move_rename_split_counterexample :
    Option.map (fun r => r.2) (safe_move fs_c3 "/dl/.gitignore" "/d" "rename" 3) =
        some (some "/d/.gitignore(1)") ∧
      fs_c3.pathExists (path_join "/d"
        ((split_at_last_dot ".gitignore").1 ++ "(" ++ toString 1 ++ ")" ++
          (split_at_last_dot ".gitignore").2)) = false ∧
      path_join "/d"
          ((split_at_last_dot ".gitignore").1 ++ "(" ++ toString 1 ++ ")" ++
            (split_at_last_dot ".gitignore").2) = "/d/(1).gitignore" ∧
      ("/d/.gitignore(1)" : String) ≠ "/d/(1).gitignore" := by
  decide

/-- `dict_get` ignores entries filtered out under a different key. -/
theorem dict_get_filter_ne {α : Type} (l : List (String × α)) (q k : String)
    (hk : k ≠ q) :
    dict_get (l.filter (fun kv => kv.1 ≠ q)) k = dict_get l k := by
  have hqk : ¬(q = k) := fun hh => hk hh.symm
  induction l with
  | nil => rfl
  | cons a t ih =>
    obtain ⟨ak, av⟩ := a
    simp only [ne_eq, decide_not] at ih ⊢
    by_cases haq : ak = q
    · subst haq
      simp [List.filter_cons, dict_get, hqk, ih]
    · by_cases hak : ak = k <;>
        simp [List.filter_cons, haq, dict_get, hak, ih, hk]

/-- `dict_get` ignores a trailing entry with a different key. -/
theorem dict_get_append_singleton {α : Type} (l : List (String × α))
    (d : String) (c : α) (k : String) (hk : k ≠ d) :
    dict_get (l ++ [(d, c)]) k = dict_get l k := by
  induction l with
  | nil =>
    have : ¬(d = k) := fun hh => hk hh.symm
    simp [dict_get, this]
  | cons a t ih =>
    obtain ⟨ak, av⟩ := a
    by_cases hak : ak = k <;> simp [dict_get, hak, ih]

/-- A move changes no path other than its source and destination. -/
theorem move_preserves_other (fs : FS) (src dst p : String)
    (hp : p ≠ src) (hd : p ≠ dst) :
    dict_get (fs.move src dst).files p = dict_get fs.files p := by
  unfold FS.move
  rcases h : dict_get fs.files src with _ | c
  · rfl
  · show dict_get ((fs.erase src).files ++ [(dst, c)]) p = dict_get fs.files p
    rw [dict_get_append_singleton _ _ _ _ hd]
    exact dict_get_filter_ne fs.files src p hp

/-- The rename loop returns the candidate with the least free counter at or
after its starting counter, provided some candidate within fuel is free. -/
theorem rename_loop_finds_least (fs : FS) (d b e : String) :
    ∀ (fuel counter : Nat),
      (∃ i, i < fuel ∧
        fs.pathExists (rename_candidate d b e (counter + i)) = false) →
      ∃ k, counter ≤ k ∧ fs.pathExists (rename_candidate d b e k) = false ∧
        (∀ j, counter ≤ j → j < k →
          fs.pathExists (rename_candidate d b e j) = true) ∧
        rename_loop fs d b e fuel counter = some (rename_candidate d b e k) := by
  intro fuel
  induction fuel with
  | zero =>
    rintro counter ⟨i, hi, -⟩
    omega
  | succ n ih =>
    rintro counter ⟨i, hi, hfree⟩
    by_cases hc : fs.pathExists (rename_candidate d b e counter) = true
    · have hfree' : ∃ i', i' < n ∧
          fs.pathExists (rename_candidate d b e (counter + 1 + i')) = false := by
        rcases i with _ | i'
        · rw [Nat.add_zero] at hfree
          rw [hfree] at hc
          simp at hc
        · refine ⟨i', by omega, ?_⟩
          have : counter + 1 + i' = counter + (i' + 1) := by omega
          rw [this]
          exact hfree
      obtain ⟨k, hk1, hk2, hk3, hk4⟩ := ih (counter + 1) hfree'
      refine ⟨k, by omega, hk2, ?_, ?_⟩
      · intro j hj1 hj2
        rcases Nat.eq_or_lt_of_le hj1 with rfl | hlt
        · exact hc
        · exact hk3 j (by omega) hj2
      · simp only [rename_loop, hc]
        simpa using hk4
    · have hc' : fs.pathExists (rename_candidate d b e counter) = false := by
        cases hx : fs.pathExists (rename_candidate d b e counter)
        · rfl
        · exact absurd hx hc
      exact ⟨counter, le_refl _, hc', fun j hj1 hj2 => by omega,
        by simp [rename_loop, hc']⟩

/-- C3 (amended): whenever `duplicate_action = "rename"` and the destination
already contains the source's filename, `safe_move` moves the source to
`dest_folder/"{base}({k}){ext}"` with `(base, ext) = os.path.splitext(filename)`
(split at the last dot, except that a name whose characters before its last
dot are all dots has an empty extension), where `k` is the smallest integer
`≥ 1` whose candidate path does not exist; it returns that path and never
overwrites any existing file (every existing path other than the source
keeps its content). -/
theorem safe_move_rename_smallest (fs : FS) (src dest_folder : String)
    (fuel : Nat)
    (hdup : fs.pathExists (path_join dest_folder (basename src)) = true)
    (hfree : ∃ i, i < fuel ∧
      fs.pathExists (candidate_path src dest_folder (1 + i)) = false) :
    ∃ k, 1 ≤ k ∧
      fs.pathExists (candidate_path src dest_folder k) = false ∧
      (∀ j, 1 ≤ j → j < k →
        fs.pathExists (candidate_path src dest_folder j) = true) ∧
      safe_move fs src dest_folder "rename" fuel =
        some (fs.move src (candidate_path src dest_folder k),
          some (candidate_path src dest_folder k)) ∧
      ∀ p, p ≠ src → fs.pathExists p = true →
        dict_get (fs.move src (candidate_path src dest_folder k)).files p =
          dict_get fs.files p := by
  obtain ⟨k, hk1, hk2, hk3, hk4⟩ :=
    rename_loop_finds_least fs dest_folder (splitext (basename src)).1
      (splitext (basename src)).2 fuel 1
      (by simpa [candidate_path] using hfree)
  have hns : ¬(("rename" : String) = "skip") := by decide
  have hnr : ¬(("rename" : String) = "replace") := by decide
  refine ⟨k, hk1, by simpa [candidate_path] using hk2,
    fun j hj1 hj2 => by simpa [candidate_path] using hk3 j hj1 hj2, ?_, ?_⟩
  · simp [safe_move, hdup, hns, hnr, hk4, candidate_path]
  · intro p hp hex
    apply move_preserves_other
    · exact hp
    · intro hcontra
      rw [hcontra] at hex
      have hk2' : fs.pathExists (candidate_path src dest_folder k) = false := by
        simpa [candidate_path] using hk2
      rw [hex] at hk2'
      simp at hk2'

/-- A filesystem where the destination holds `a.txt` and `a(1).txt`, so the
least free counter is 2. -/
def fs_c3r : FS :=
  ⟨[("/dl/a.txt", [1]), ("/d/a.txt", [2]), ("/d/a(1).txt", [3])]⟩

/-- Witness for the amended C3 at a concrete filesystem with one rename
collision. -/
theorem safe_move_rename_smallest_witness :
    ∃ k, 1 ≤ k ∧
      fs_c3r.pathExists (candidate_path "/dl/a.txt" "/d" k) = false ∧
      (∀ j, 1 ≤ j → j < k →
        fs_c3r.pathExists (candidate_path "/dl/a.txt" "/d" j) = true) ∧
      safe_move fs_c3r "/dl/a.txt" "/d" "rename" 3 =
        some (fs_c3r.move "/dl/a.txt" (candidate_path "/dl/a.txt" "/d" k),
          some (candidate_path "/dl/a.txt" "/d" k)) ∧
      ∀ p, p ≠ "/dl/a.txt" → fs_c3r.pathExists p = true →
        dict_get (fs_c3r.move "/dl/a.txt"
            (candidate_path "/dl/a.txt" "/d" k)).files p =
          dict_get fs_c3r.files p :=
  safe_move_rename_smallest fs_c3r "/dl/a.txt" "/d" 3 (by decide)
    ⟨1, by omega, by decide⟩

end AutoSorter
